import Mathlib

/-!
Shallow embedding of the C5_Py_Flasher repository (src/c5_flasher.py and
src/_c5_flasher.py).  Both scripts share the same pipeline: wait for a new
serial port, resolve firmware images in a directory, confirm with the
operator, and invoke esptool with a fixed argument list.  The two scripts
differ only in the bootloader offset (0x2000 vs 0x0) and in whether flash
geometry flags are passed; this is captured by `Variant`.

A directory is modelled as the ordered listing that `glob` observes: a list
of entries carrying a name, a byte size, and a regular-file flag.
-/

namespace C5Flasher

/-- One directory entry as seen by `glob`/`os.path`: its name, its size in
bytes (`os.path.getsize`), and whether it is a regular file
(`os.path.isfile`). -/
structure FileEntry where
  name : String
  size : Nat
  isFile : Bool
deriving DecidableEq, Repr

/-- A snapshot of the bins directory: the listing in the order the OS
enumerates it (the order `glob.glob` returns). -/
abbrev DirSnapshot := List FileEntry

/-- Whether some directory entry (file or not) bears the given name; this is
what `glob.glob` of a wildcard-free pattern tests. -/
def hasName (d : DirSnapshot) (n : String) : Bool :=
  d.any (fun e => e.name == n)

/-- `find_file(name_options)`: try each candidate name in order with
`glob.glob`; the first name that matches an existing entry wins and its
path is returned, otherwise `None`.  (The candidate names used by the
scripts contain no wildcard, so the glob of a name matches exactly that
name.) -/
def find_file (name_options : List String) (d : DirSnapshot) : Option String :=
  name_options.find? (fun n => hasName d n)

/-- `bootloader = find_file(['bootloader.bin'])`. -/
def bootloaderOf (d : DirSnapshot) : Option String :=
  find_file ["bootloader.bin"] d

/-- `partitions = find_file(['partition-table.bin', 'partitions.bin'])`. -/
def partitionsOf (d : DirSnapshot) : Option String :=
  find_file ["partition-table.bin", "partitions.bin"] d

/-- `ota_data = find_file(['ota_data_initial.bin'])` (optional). -/
def otaDataOf (d : DirSnapshot) : Option String :=
  find_file ["ota_data_initial.bin"] d

/-- Whether a name is matched by `glob.glob("*.bin")`: it ends in `.bin`
and, per glob's hidden-file rule for wildcard patterns, does not start with
a dot. -/
def matchesBinGlob (n : String) : Bool :=
  (n.data.reverse.take 4 == ['n', 'i', 'b', '.']) && !(n.data.head? == some '.')

/-- `all_bins = glob.glob(os.path.join(dir, "*.bin"))`, in listing order. -/
def allBins (d : DirSnapshot) : List FileEntry :=
  d.filter (fun e => matchesBinGlob e.name)

/-- Membership of a path in the Python set
`exclude = {bootloader, partitions, ota_data}` (whose elements are paths or
`None`; a path is in the set iff it equals one of the role paths). -/
def inExclude (b p o : Option String) (f : String) : Bool :=
  some f == b || some f == p || some f == o

/-- `firmware_bins = [f for f in all_bins if f not in exclude and
os.path.isfile(f)]`. -/
def firmwareBins (d : DirSnapshot) : List FileEntry :=
  (allBins d).filter
    (fun e => !(inExclude (bootloaderOf d) (partitionsOf d) (otaDataOf d) e.name)
      && e.isFile)

/-- Python's `max(firmware_bins, key=os.path.getsize)` as a left fold: the
current maximum is replaced only when a strictly larger element appears, so
on ties the earliest element is kept. -/
def pyMaxBySize (m : FileEntry) : List FileEntry → FileEntry
  | [] => m
  | x :: xs => pyMaxBySize (if x.size > m.size then x else m) xs

/-- The resolved firmware image set: both required roles present, the
optional OTA role, and the selected application image. -/
structure ImageSet where
  bootloader : String
  partitions : String
  ota_data : Option String
  app_bin : String
deriving DecidableEq, Repr

/-- The two fatal resolution failures of the scripts, in the order the code
checks them: no candidate application image, then a missing required
image. -/
inductive ResolveError where
  | noAppImage
  | missingRequired
deriving DecidableEq, Repr

/-- The firmware-resolution part of `main`: match the three roles, filter
the unassigned `.bin` files, fail if none remains, select the largest as
the application, then fail if the bootloader or the partition table is
missing. -/
def resolve (d : DirSnapshot) : Except ResolveError ImageSet :=
  match firmwareBins d with
  | [] => .error .noAppImage
  | x :: xs =>
    let app_bin := (pyMaxBySize x xs).name
    match bootloaderOf d, partitionsOf d with
    | some b, some p => .ok ⟨b, p, otaDataOf d, app_bin⟩
    | _, _ => .error .missingRequired

/-- `true` iff `resolve` succeeds. -/
def resolveOk (d : DirSnapshot) : Bool :=
  match resolve d with
  | .ok _ => true
  | .error _ => false

/-- The whitespace characters stripped by Python's `str.strip()` (ASCII
range). -/
def pyIsSpace (c : Char) : Bool :=
  c == ' ' || c == '\t' || c == '\n' || c == '\x0d' || c == '\x0b' || c == '\x0c'

/-- `str.strip()`: drop leading and trailing whitespace. -/
def pyStrip (l : List Char) : List Char :=
  ((l.dropWhile pyIsSpace).reverse.dropWhile pyIsSpace).reverse

/-- `str.lower()` on the characters the scripts can receive (ASCII). -/
def pyLowerChar (c : Char) : Char :=
  if 'A' ≤ c && c ≤ 'Z' then Char.ofNat (c.toNat + 32) else c

/-- `confirm.strip().lower() == 'y'`: the sole condition under which the
scripts proceed to flashing. -/
def confirmProceeds (input : String) : Bool :=
  (pyStrip input.data).map pyLowerChar == ['y']

/-- The two observed script variants: `c5_flasher.py` (bootloader at
0x2000, no flash geometry flags) and `_c5_flasher.py` (bootloader at 0x0,
with `--flash_mode qio --flash_freq 80m --flash_size 4MB`). -/
inductive Variant where
  | c5
  | c5Alt
deriving DecidableEq, Repr

/-- The `esptool_args` list exactly as each script builds it: the fixed
connection flags, the geometry flags of the `c5Alt` variant, `write_flash
-z`, the bootloader at the variant's offset, the partition table at 0x8000,
the OTA data at 0xd000 when present, and the application at 0x10000. -/
def esptool_args (v : Variant) (port bootloader partitions : String)
    (ota_data : Option String) (app_bin : String) : List String :=
  (["--chip", "esp32c5", "--port", port, "--baud", "921600",
    "--before", "default_reset", "--after", "hard_reset"]
    ++ (match v with
        | .c5 => []
        | .c5Alt => ["--flash_mode", "qio", "--flash_freq", "80m",
                     "--flash_size", "4MB"])
    ++ ["write_flash", "-z",
        (match v with | .c5 => "0x2000" | .c5Alt => "0x0"), bootloader,
        "0x8000", partitions]
    ++ (match ota_data with | some o => ["0xd000", o] | none => [])
    ++ ["0x10000", app_bin])

/-- The console events of one run that the claims speak about, in the order
`main` emits them. -/
inductive Event where
  | summary (bootloader partitions ota_data : Option String) (app_bin : String)
  | noAppImageError
  | missingRequiredError
  | abortMsg
  | flashCall (args : List String)
  | flashComplete
  | flashFailed
deriving DecidableEq, Repr

/-- The observable outcome of one run of `main` after the port was
detected: the emitted events in order, and the process exit status. -/
structure RunResult where
  trace : List Event
  exitCode : Nat
deriving DecidableEq, Repr

/-- `main` after port detection, as a function of the directory snapshot,
the detected port, the operator's input, and whether the external
`esptool.main` call raises.  Mirrors the source line by line: role
matching, the application-image check (`exit(1)`), the summary print, the
required-roles check (`exit(1)`), the confirmation (`exit(0)` on decline),
and the `try`/`except` around `esptool.main`. -/
def mainRun (v : Variant) (d : DirSnapshot) (port : String)
    (confirmInput : String) (flashRaises : Bool) : RunResult :=
  let bootloader := bootloaderOf d
  let partitions := partitionsOf d
  let ota_data := otaDataOf d
  match firmwareBins d with
  | [] => ⟨[.noAppImageError], 1⟩
  | x :: xs =>
    let app_bin := (pyMaxBySize x xs).name
    let sum := Event.summary bootloader partitions ota_data app_bin
    match bootloader, partitions with
    | some b, some p =>
      if confirmProceeds confirmInput then
        let args := esptool_args v port b p ota_data app_bin
        if flashRaises then ⟨[sum, .flashCall args, .flashFailed], 0⟩
        else ⟨[sum, .flashCall args, .flashComplete], 0⟩
      else ⟨[sum, .abortMsg], 0⟩
    | _, _ => ⟨[sum, .missingRequiredError], 1⟩

/-- `time.sleep(0.5)`: the polling interval, in milliseconds. -/
def pollIntervalMs : Nat := 500

/-- The ports of one poll that are not in the baseline snapshot:
`current_ports - existing_ports`. -/
def newPorts (baseline current : List String) : List String :=
  current.filter (fun p => !(baseline.contains p))

/-- `find_new_serial_port`, with the environment abstracted as the sequence
`polls` of port listings the successive `comports()` calls observe.  `i` is
the iteration index, `slept` the milliseconds slept so far, and the fuel
bounds how many iterations we unfold (the Python loop is unbounded; running
out of fuel returns `none`, meaning the loop is still spinning).  On
success it returns the iteration index, the total sleep time, and the
detected port. -/
def find_new_serial_port (baseline : List String) (polls : Nat → List String) :
    Nat → Nat → Nat → Option (Nat × Nat × String)
  | _, _, 0 => none
  | i, slept, fuel + 1 =>
    match newPorts baseline (polls i) with
    | [] => find_new_serial_port baseline polls (i + 1) (slept + pollIntervalMs) fuel
    | p :: _ => some (i, slept, p)

/-! Spec-side rendering of the flash invocation (for the refinement claim
about the argument list): the offset table of spec §4.4 and the fixed
connection parameters, written from the spec's words and to be compared
with `esptool_args` as the scripts build it. -/

/-- Spec §4.4: the bootloader offset is chip-variant specific, `0x0` or
`0x2000`. -/
def bootOffsetSpec : Variant → String
  | .c5 => "0x2000"
  | .c5Alt => "0x0"

/-- Spec §4.4: flash mode/frequency/size, passed only in the variant that
specifies them. -/
def geometrySpec : Variant → List String
  | .c5 => []
  | .c5Alt => ["--flash_mode", "qio", "--flash_freq", "80m", "--flash_size", "4MB"]

/-- Spec §4.4: the ordered offset table — bootloader at the variant
offset, partition table at `0x8000`, OTA data at `0xd000` if and only if
present, application at `0x10000`. -/
def offsetTableSpec (v : Variant) (imgs : ImageSet) : List (String × String) :=
  [(bootOffsetSpec v, imgs.bootloader), ("0x8000", imgs.partitions)]
  ++ (match imgs.ota_data with | some o => [("0xd000", o)] | none => [])
  ++ [("0x10000", imgs.app_bin)]

/-- Spec §4.4: the fixed connection parameters — chip identifier
`esp32c5`, the detected serial port, baud rate `921600`, pre-flash reset
`default_reset`, post-flash reset `hard_reset`, plus the optional flash
geometry. -/
def connectionSpec (v : Variant) (port : String) : List String :=
  ["--chip", "esp32c5", "--port", port, "--baud", "921600",
   "--before", "default_reset", "--after", "hard_reset"] ++ geometrySpec v

/-- The whole spec-side argument list: connection parameters, then the
`write_flash -z` subcommand, then the offset table flattened in order. -/
def flashArgsSpec (v : Variant) (port : String) (imgs : ImageSet) : List String :=
  connectionSpec v port ++ ["write_flash", "-z"]
  ++ (offsetTableSpec v imgs).flatMap (fun pr => [pr.1, pr.2])

/-! Concrete snapshots used by the witnesses. -/

/-- A well-formed bins directory: bootloader, partition table (second
candidate name), and one application candidate. -/
def dEx : DirSnapshot :=
  [⟨"bootloader.bin", 100, true⟩, ⟨"partitions.bin", 200, true⟩,
   ⟨"app_v3.bin", 500, true⟩]

/-- The argument list the `c5` variant produces on `dEx` and port `COM5`. -/
def argsEx : List String :=
  ["--chip", "esp32c5", "--port", "COM5", "--baud", "921600",
   "--before", "default_reset", "--after", "hard_reset", "write_flash", "-z",
   "0x2000", "bootloader.bin", "0x8000", "partitions.bin",
   "0x10000", "app_v3.bin"]

/-- A directory with an application candidate but no bootloader. -/
def dMissing : DirSnapshot :=
  [⟨"partitions.bin", 200, true⟩, ⟨"app.bin", 500, true⟩]

/-- A directory holding only role-matched files, so no application
candidate remains. -/
def dOnlyRoles : DirSnapshot :=
  [⟨"bootloader.bin", 100, true⟩, ⟨"partitions.bin", 200, true⟩]

/-- Whether an event is an invocation of the external flashing
capability. -/
def isFlashCall : Event → Bool
  | .flashCall _ => true
  | _ => false

/-- A directory in which two application candidates tie for the largest
size. -/
def dTie : DirSnapshot :=
  [⟨"bootloader.bin", 100, true⟩, ⟨"partitions.bin", 200, true⟩,
   ⟨"alpha.bin", 700, true⟩, ⟨"beta.bin", 700, true⟩]

/-- A port-poll sequence for the witnesses: the new port `COM5` appears at
the third poll. -/
def pollsEx : Nat → List String :=
  fun j => if j == 2 then ["COM1", "COM5"] else ["COM1"]

/-! Helper lemmas. -/

/-- The script-side and spec-side argument lists coincide. -/
lemma esptool_args_eq_spec (v : Variant) (port b p : String) (o : Option String)
    (a : String) :
    esptool_args v port b p o a = flashArgsSpec v port ⟨b, p, o, a⟩ := by
  cases v <;> cases o <;>
    simp [esptool_args, flashArgsSpec, connectionSpec, geometrySpec,
      offsetTableSpec, bootOffsetSpec]

/-- Python's `max(·, key=size)` splits its input as `l₁ ++ m :: l₂` where
`m` carries the maximal size and everything in `l₁` is strictly smaller:
the returned element is the first one attaining the maximum. -/
lemma pyMaxBySize_split (l : List FileEntry) : ∀ a : FileEntry,
    ∃ l₁ l₂, a :: l = l₁ ++ pyMaxBySize a l :: l₂ ∧
      (∀ x ∈ a :: l, x.size ≤ (pyMaxBySize a l).size) ∧
      (∀ x ∈ l₁, x.size < (pyMaxBySize a l).size) := by
  induction l with
  | nil =>
    intro a
    exact ⟨[], [], rfl, by simp [pyMaxBySize], by simp⟩
  | cons x xs ih =>
    intro a
    by_cases h : x.size > a.size
    · obtain ⟨l₁, l₂, heq, hmax, hstrict⟩ := ih x
      have hdef : pyMaxBySize a (x :: xs) = pyMaxBySize x xs := by
        simp [pyMaxBySize, h]
      have hx : x.size ≤ (pyMaxBySize x xs).size := hmax x (List.mem_cons_self x xs)
      refine ⟨a :: l₁, l₂, ?_, ?_, ?_⟩
      · rw [hdef, List.cons_append]
        exact congrArg (List.cons a) heq
      · intro y hy
        rw [hdef]
        rcases List.mem_cons.mp hy with rfl | hy'
        · exact le_of_lt (lt_of_lt_of_le h hx)
        · exact hmax y hy'
      · intro y hy
        rw [hdef]
        rcases List.mem_cons.mp hy with rfl | hy'
        · exact lt_of_lt_of_le h hx
        · exact hstrict y hy'
    · obtain ⟨l₁, l₂, heq, hmax, hstrict⟩ := ih a
      have hdef : pyMaxBySize a (x :: xs) = pyMaxBySize a xs := by
        simp [pyMaxBySize, h]
      have hxa : x.size ≤ a.size := le_of_not_lt h
      cases l₁ with
      | nil =>
        simp only [List.nil_append, List.cons.injEq] at heq
        obtain ⟨hm, _⟩ := heq
        refine ⟨[], x :: xs, ?_, ?_, by simp⟩
        · rw [hdef, ← hm]
          rfl
        · intro y hy
          rw [hdef, ← hm]
          rcases List.mem_cons.mp hy with rfl | hy'
          · exact le_refl _
          rcases List.mem_cons.mp hy' with rfl | hy''
          · exact hxa
          · have hmem : y ∈ a :: xs := List.mem_cons_of_mem a hy''
            have := hmax y hmem
            rwa [← hm] at this
      | cons b t =>
        rw [List.cons_append, List.cons.injEq] at heq
        obtain ⟨hb, hxs⟩ := heq
        have hamem : a ∈ b :: t := hb ▸ List.mem_cons_self b t
        have ha : a.size < (pyMaxBySize a xs).size := hstrict a hamem
        refine ⟨a :: x :: t, l₂, ?_, ?_, ?_⟩
        · rw [hdef]
          conv_lhs => rw [hxs]
          simp
        · intro y hy
          rw [hdef]
          rcases List.mem_cons.mp hy with rfl | hy'
          · exact le_of_lt ha
          rcases List.mem_cons.mp hy' with rfl | hy''
          · exact le_of_lt (lt_of_le_of_lt hxa ha)
          · exact hmax y (List.mem_cons_of_mem a hy'')
        · intro y hy
          rw [hdef]
          rcases List.mem_cons.mp hy with rfl | hy'
          · exact ha
          rcases List.mem_cons.mp hy' with rfl | hy''
          · exact lt_of_le_of_lt hxa ha
          · exact hstrict y (List.mem_cons_of_mem b hy'')

/-- The element Python's `max` returns is a member of its input list. -/
lemma pyMaxBySize_mem (a : FileEntry) (l : List FileEntry) :
    pyMaxBySize a l ∈ a :: l := by
  obtain ⟨l₁, l₂, heq, -, -⟩ := pyMaxBySize_split l a
  rw [heq]
  exact List.mem_append_right l₁ (List.mem_cons_self _ _)

/-- The element Python's `max` returns has maximal size. -/
lemma pyMaxBySize_le (a : FileEntry) (l : List FileEntry) :
    ∀ x ∈ a :: l, x.size ≤ (pyMaxBySize a l).size := by
  obtain ⟨-, -, -, hmax, -⟩ := pyMaxBySize_split l a
  exact hmax

/-- Soundness of the polling loop: if it returns, it does so at some poll
`j` at or after the start index, the returned port was present in poll `j`
but not in the baseline, the accumulated sleep grew by one interval per
empty iteration, and every iteration strictly before `j` saw an empty
difference. -/
lemma find_new_serial_port_sound :
    ∀ (fuel i slept : Nat) (baseline : List String) (polls : Nat → List String)
      (j s : Nat) (p : String),
      find_new_serial_port baseline polls i slept fuel = some (j, s, p) →
      i ≤ j ∧ p ∈ polls j ∧ p ∉ baseline ∧
        s = slept + (j - i) * pollIntervalMs ∧
        ∀ k, i ≤ k → k < j → newPorts baseline (polls k) = [] := by
  intro fuel
  induction fuel with
  | zero =>
    intro i slept baseline polls j s p h
    simp [find_new_serial_port] at h
  | succ n ih =>
    intro i slept baseline polls j s p h
    cases hnp : newPorts baseline (polls i) with
    | nil =>
      simp only [find_new_serial_port, hnp] at h
      obtain ⟨hij, hmem, hnb, hs, hemp⟩ := ih (i + 1) (slept + pollIntervalMs) baseline polls j s p h
      refine ⟨by omega, hmem, hnb, ?_, ?_⟩
      · have hji : j - i = (j - (i + 1)) + 1 := by omega
        rw [hs, hji, Nat.add_mul, Nat.one_mul]
        ring
      · intro k hik hkj
        rcases Nat.eq_or_lt_of_le hik with rfl | hlt
        · exact hnp
        · exact hemp k hlt hkj
    | cons q rest =>
      simp only [find_new_serial_port, hnp, Option.some.injEq, Prod.mk.injEq] at h
      obtain ⟨rfl, rfl, rfl⟩ := h
      have hq : q ∈ newPorts baseline (polls i) := by
        rw [hnp]; exact List.mem_cons_self q rest
      obtain ⟨hmem, hcond⟩ := List.mem_filter.mp hq
      refine ⟨le_refl i, hmem, by simpa using hcond, by simp, ?_⟩
      intro k hik hki
      exact absurd (lt_of_le_of_lt hik hki) (lt_irrefl i)

/-- If no poll ever shows a port outside the baseline, the loop never
returns, whatever the iteration bound. -/
lemma find_new_serial_port_none (baseline : List String)
    (polls : Nat → List String)
    (hall : ∀ j, newPorts baseline (polls j) = []) :
    ∀ (fuel i slept : Nat),
      find_new_serial_port baseline polls i slept fuel = none := by
  intro fuel
  induction fuel with
  | zero => intro i slept; rfl
  | succ n ih =>
    intro i slept
    simp only [find_new_serial_port, hall i]
    exact ih (i + 1) (slept + pollIntervalMs)

/-- `confirm.strip().lower() == 'y'` unfolded to the normalised character
list. -/
lemma confirmProceeds_iff (input : String) :
    confirmProceeds input = true ↔ (pyStrip input.data).map pyLowerChar = ['y'] := by
  simp [confirmProceeds]

/-- C7: whenever the port-watcher loop returns, the returned identifier is
a member of some polled port set minus the baseline; every iteration
before the successful one saw an empty difference and slept one 500 ms
interval (so the accumulated sleep is the iteration count times
`pollIntervalMs`); and the loop has no upper bound on iterations: if no
new port ever appears, it returns nothing at every bound. -/
theorem portWatcher_returns_only_new_ports (baseline : List String)
    (polls : Nat → List String) :
    (∀ fuel j s p,
      find_new_serial_port baseline polls 0 0 fuel = some (j, s, p) →
      p ∈ polls j ∧ p ∉ baseline ∧ s = j * pollIntervalMs ∧
        ∀ k, k < j → newPorts baseline (polls k) = []) ∧
    (∀ fuel, (∀ j, newPorts baseline (polls j) = []) →
      find_new_serial_port baseline polls 0 0 fuel = none) := by
  constructor
  · intro fuel j s p h
    obtain ⟨-, hmem, hnb, hs, hemp⟩ :=
      find_new_serial_port_sound fuel 0 0 baseline polls j s p h
    exact ⟨hmem, hnb, by simpa using hs, fun k hk => hemp k (Nat.zero_le k) hk⟩
  · intro fuel hall
    exact find_new_serial_port_none baseline polls hall fuel 0 0

/-- Witness for C7: on a concrete poll sequence the watcher detects
`COM5`, which is indeed a fresh port, and on a sequence that never shows a
fresh port it keeps looping. -/
theorem portWatcher_returns_only_new_ports_witness :
    ("COM5" ∈ pollsEx 2 ∧ "COM5" ∉ ["COM1"]) ∧
    find_new_serial_port ["COM1"] (fun _ => ["COM1"]) 0 0 7 = none := by
  constructor
  · have h :=
      (portWatcher_returns_only_new_ports ["COM1"] pollsEx).1 10 2 1000 "COM5" (by rfl)
    exact ⟨h.1, h.2.1⟩
  · exact (portWatcher_returns_only_new_ports ["COM1"] (fun _ => ["COM1"])).2 7
      (fun j => rfl)

/-- C10: a port identifier present in the baseline snapshot is never
returned by the watcher, from any reachable loop state and under any poll
behaviour — including one where the port disappears and reappears —
because every difference is taken against the original baseline. -/
theorem baseline_port_never_returned (baseline : List String)
    (polls : Nat → List String) (i slept fuel j s : Nat) (p : String)
    (hp : p ∈ baseline) :
    find_new_serial_port baseline polls i slept fuel ≠ some (j, s, p) := by
  intro h
  obtain ⟨-, -, hnb, -, -⟩ :=
    find_new_serial_port_sound fuel i slept baseline polls j s p h
  exact hnb hp

/-- Witness for C10: the baseline port `COM1` disappears at the first poll
and reappears at the second, yet the watcher does not report it there. -/
theorem baseline_port_never_returned_witness :
    find_new_serial_port ["COM1"] (fun j => if j == 0 then [] else ["COM1"])
      0 0 5 ≠ some (1, 500, "COM1") :=
  baseline_port_never_returned ["COM1"] _ 0 0 5 1 500 "COM1" (by simp)

/-- C8: firmware resolution is a deterministic function of the directory
snapshot: two directory listings showing the same file names, byte sizes
and file kinds in the same order yield identical role assignments. -/
theorem resolve_deterministic (d₁ d₂ : DirSnapshot)
    (h : d₁.map (fun e => (e.name, e.size, e.isFile)) =
         d₂.map (fun e => (e.name, e.size, e.isFile))) :
    resolve d₁ = resolve d₂ := by
  have hinj : Function.Injective (fun e : FileEntry => (e.name, e.size, e.isFile)) := by
    intro a b hab
    cases a; cases b
    simpa using hab
  have hd : d₁ = d₂ := List.map_injective_iff.mpr hinj h
  rw [hd]

/-- Witness for C8 at a concrete pair of snapshots with the same
listing. -/
theorem resolve_deterministic_witness : resolve dEx = resolve (dEx ++ []) :=
  resolve_deterministic dEx (dEx ++ []) (by rfl)

/-- C3: each role is matched from its fixed candidate list in priority
order with the first match winning — `bootloader.bin` for the bootloader,
`partition-table.bin` then `partitions.bin` for the partition table,
`ota_data_initial.bin` for the optional OTA role — and resolution fails
exactly when no application candidate remains or a required role is
unmatched, so a missing OTA image alone is never an error. -/
theorem role_matching_priority (d : DirSnapshot) :
    bootloaderOf d =
      (if hasName d "bootloader.bin" then some "bootloader.bin" else none) ∧
    partitionsOf d =
      (if hasName d "partition-table.bin" then some "partition-table.bin"
       else if hasName d "partitions.bin" then some "partitions.bin" else none) ∧
    otaDataOf d =
      (if hasName d "ota_data_initial.bin" then some "ota_data_initial.bin"
       else none) ∧
    resolveOk d =
      (!(firmwareBins d).isEmpty && (bootloaderOf d).isSome
        && (partitionsOf d).isSome) := by
  refine ⟨?_, ?_, ?_, ?_⟩
  · cases h : hasName d "bootloader.bin" <;>
      simp [bootloaderOf, find_file, List.find?, h]
  · cases h1 : hasName d "partition-table.bin" <;>
      cases h2 : hasName d "partitions.bin" <;>
      simp [partitionsOf, find_file, List.find?, h1, h2]
  · cases h : hasName d "ota_data_initial.bin" <;>
      simp [otaDataOf, find_file, List.find?, h]
  · cases hf : firmwareBins d <;> cases hb : bootloaderOf d <;>
      cases hp : partitionsOf d <;>
      simp [resolveOk, resolve, hf, hb, hp]

/-- C2: when resolution succeeds the application image is one of the
unassigned `.bin` files and has maximal byte size among them, so its path
differs from the bootloader, partition-table and OTA paths; and when no
unassigned `.bin` file exists, resolution fails with the
no-application-image error and the run exits with status 1. -/
theorem app_selection (d : DirSnapshot) :
    (∀ imgs, resolve d = .ok imgs →
      (∃ e, e ∈ firmwareBins d ∧ e.name = imgs.app_bin ∧
        ∀ f ∈ firmwareBins d, f.size ≤ e.size) ∧
      imgs.app_bin ≠ imgs.bootloader ∧ imgs.app_bin ≠ imgs.partitions ∧
      ∀ o, imgs.ota_data = some o → imgs.app_bin ≠ o) ∧
    (firmwareBins d = [] →
      resolve d = .error .noAppImage ∧
      ∀ v port inp r, mainRun v d port inp r = ⟨[.noAppImageError], 1⟩) := by
  constructor
  · intro imgs himgs
    cases hf : firmwareBins d with
    | nil => simp [resolve, hf] at himgs
    | cons x xs =>
      cases hb : bootloaderOf d with
      | none => simp [resolve, hf, hb] at himgs
      | some b =>
        cases hp : partitionsOf d with
        | none => simp [resolve, hf, hb, hp] at himgs
        | some p =>
          simp only [resolve, hf, hb, hp, Except.ok.injEq] at himgs
          subst himgs
          have hmemf : pyMaxBySize x xs ∈ firmwareBins d := by
            rw [hf]; exact pyMaxBySize_mem x xs
          have hmem' : pyMaxBySize x xs ∈
              (allBins d).filter
                (fun e => !(inExclude (bootloaderOf d) (partitionsOf d)
                  (otaDataOf d) e.name) && e.isFile) := by
            simpa [firmwareBins] using hmemf
          obtain ⟨-, hcond⟩ := List.mem_filter.mp hmem'
          simp only [Bool.and_eq_true, Bool.not_eq_true'] at hcond
          have hex := hcond.1
          rw [hb, hp] at hex
          simp only [inExclude, Bool.or_eq_false_iff, beq_eq_false_iff_ne,
            ne_eq, Option.some.injEq] at hex
          obtain ⟨⟨hneb, hnep⟩, hneo⟩ := hex
          refine ⟨⟨pyMaxBySize x xs, pyMaxBySize_mem x xs, rfl,
            pyMaxBySize_le x xs⟩, hneb, hnep, ?_⟩
          intro o ho hcontra
          dsimp only at ho hcontra
          rw [ho] at hneo
          exact hneo (congrArg some hcontra)
  · intro hf
    refine ⟨by simp [resolve, hf], ?_⟩
    intro v port inp r
    simp [mainRun, hf]

/-- Witness for C2: on `dEx` the selected application differs from the
bootloader path, and on a directory holding only role files resolution
fails with the no-application error and the run exits with status 1. -/
theorem app_selection_witness :
    ("app_v3.bin" : String) ≠ "bootloader.bin" ∧
    resolve dOnlyRoles = .error .noAppImage ∧
    mainRun .c5 dOnlyRoles "COM5" "y" false = ⟨[.noAppImageError], 1⟩ := by
  refine ⟨?_, ?_, ?_⟩
  · exact ((app_selection dEx).1
      ⟨"bootloader.bin", "partitions.bin", none, "app_v3.bin"⟩ (by rfl)).2.1
  · exact ((app_selection dOnlyRoles).2 (by rfl)).1
  · exact ((app_selection dOnlyRoles).2 (by rfl)).2 .c5 "COM5" "y" false

/-- C9: the selected application image is the first maximal element of
the `*.bin` enumeration: the unassigned candidates split as
`l₁ ++ e :: l₂` with the chosen `e` of maximal size and everything before
it of strictly smaller size, so ties are broken toward the earliest
listed file. -/
theorem app_tie_break_first_maximal (d : DirSnapshot) (imgs : ImageSet)
    (h : resolve d = .ok imgs) :
    ∃ l₁ e l₂, firmwareBins d = l₁ ++ e :: l₂ ∧ e.name = imgs.app_bin ∧
      (∀ f ∈ firmwareBins d, f.size ≤ e.size) ∧
      ∀ f ∈ l₁, f.size < e.size := by
  cases hf : firmwareBins d with
  | nil => simp [resolve, hf] at h
  | cons x xs =>
    cases hb : bootloaderOf d with
    | none => simp [resolve, hf, hb] at h
    | some b =>
      cases hp : partitionsOf d with
      | none => simp [resolve, hf, hb, hp] at h
      | some p =>
        simp only [resolve, hf, hb, hp, Except.ok.injEq] at h
        subst h
        obtain ⟨l₁, l₂, heq, hmax, hstrict⟩ := pyMaxBySize_split xs x
        exact ⟨l₁, pyMaxBySize x xs, l₂, heq, rfl, hmax, hstrict⟩

/-- Witness for C9: with two 700-byte candidates `alpha.bin` listed before
`beta.bin`, the resolved application is the earlier one. -/
theorem app_tie_break_first_maximal_witness :
    ∃ l₁ e l₂, firmwareBins dTie = l₁ ++ e :: l₂ ∧
      e.name = (ImageSet.mk "bootloader.bin" "partitions.bin" none
        "alpha.bin").app_bin ∧
      (∀ f ∈ firmwareBins dTie, f.size ≤ e.size) ∧
      ∀ f ∈ l₁, f.size < e.size :=
  app_tie_break_first_maximal dTie
    ⟨"bootloader.bin", "partitions.bin", none, "alpha.bin"⟩ (by rfl)

/-- C1: whenever a run reaches the external flashing call, the argument
list handed to it is exactly the spec-side one: the fixed connection
parameters (chip `esp32c5`, the detected port, baud `921600`, resets
`default_reset`/`hard_reset`, geometry only in the variant that has it)
followed by the ordered offset/file pairs of the resolved images, the OTA
pair present iff the OTA image was found. -/
theorem flash_args_match_spec (v : Variant) (d : DirSnapshot)
    (port inp : String) (r : Bool) (args : List String)
    (h : Event.flashCall args ∈ (mainRun v d port inp r).trace) :
    ∃ imgs, resolve d = .ok imgs ∧ args = flashArgsSpec v port imgs := by
  cases hf : firmwareBins d with
  | nil => simp [mainRun, hf] at h
  | cons x xs =>
    cases hb : bootloaderOf d with
    | none => simp [mainRun, hf, hb] at h
    | some b =>
      cases hp : partitionsOf d with
      | none => simp [mainRun, hf, hb, hp] at h
      | some p =>
        cases hc : confirmProceeds inp with
        | false => simp [mainRun, hf, hb, hp, hc] at h
        | true =>
          have harg : args =
              esptool_args v port b p (otaDataOf d) (pyMaxBySize x xs).name := by
            cases r <;> simpa [mainRun, hf, hb, hp, hc] using h
          refine ⟨⟨b, p, otaDataOf d, (pyMaxBySize x xs).name⟩, ?_, ?_⟩
          · simp [resolve, hf, hb, hp]
          · rw [harg]
            exact esptool_args_eq_spec v port b p (otaDataOf d) _

/-- Witness for C1: the concrete run on `dEx` flashes with exactly the
expected argument list. -/
theorem flash_args_match_spec_witness :
    ∃ imgs, resolve dEx = .ok imgs ∧ argsEx = flashArgsSpec .c5 "COM5" imgs :=
  flash_args_match_spec .c5 dEx "COM5" "y" false argsEx (by decide)

/-- Counterexample to C4 as stated: in an empty bins directory the
bootloader role has no matching file, yet the run fails with the
no-application-image error, not the missing-required-image one, and no
found/not-found summary is printed before exiting. -/
theorem missing_required_claim_counterexample :
    bootloaderOf ([] : DirSnapshot) = none ∧
    resolve ([] : DirSnapshot) = .error .noAppImage ∧
    ResolveError.noAppImage ≠ ResolveError.missingRequired ∧
    mainRun .c5 [] "COM5" "y" false = ⟨[.noAppImageError], 1⟩ :=
  ⟨rfl, rfl, by decide, rfl⟩

/-- C4 amended: provided at least one unassigned `.bin` file exists (so
application-image selection succeeds first), a run on a directory whose
bootloader or partition-table role is unmatched prints the found/not-found
summary of the roles, then fails with the missing-required-image error and
exit status 1, without ever invoking the flashing capability. -/
theorem missing_required_image (v : Variant) (d : DirSnapshot)
    (port inp : String) (r : Bool) (hne : firmwareBins d ≠ [])
    (hmiss : bootloaderOf d = none ∨ partitionsOf d = none) :
    ∃ a, mainRun v d port inp r =
        ⟨[Event.summary (bootloaderOf d) (partitionsOf d) (otaDataOf d) a,
          Event.missingRequiredError], 1⟩ ∧
      resolve d = .error .missingRequired ∧
      ∀ args, Event.flashCall args ∉ (mainRun v d port inp r).trace := by
  cases hf : firmwareBins d with
  | nil => exact absurd hf hne
  | cons x xs =>
    refine ⟨(pyMaxBySize x xs).name, ?_, ?_, ?_⟩
    · rcases hmiss with hb | hp
      · cases hp' : partitionsOf d <;> simp [mainRun, hf, hb, hp']
      · cases hb' : bootloaderOf d <;> simp [mainRun, hf, hb', hp]
    · rcases hmiss with hb | hp
      · cases hp' : partitionsOf d <;> simp [resolve, hf, hb, hp']
      · cases hb' : bootloaderOf d <;> simp [resolve, hf, hb', hp]
    · intro args
      rcases hmiss with hb | hp
      · cases hp' : partitionsOf d <;> simp [mainRun, hf, hb, hp']
      · cases hb' : bootloaderOf d <;> simp [mainRun, hf, hb', hp]

/-- Witness for the amended C4: a directory with a partition table and an
application candidate but no bootloader prints the summary and fails with
the missing-required error. -/
theorem missing_required_image_witness :
    ∃ a, mainRun .c5 dMissing "COM5" "y" false =
        ⟨[Event.summary (bootloaderOf dMissing) (partitionsOf dMissing)
            (otaDataOf dMissing) a, Event.missingRequiredError], 1⟩ ∧
      resolve dMissing = .error .missingRequired ∧
      ∀ args,
        Event.flashCall args ∉ (mainRun .c5 dMissing "COM5" "y" false).trace :=
  missing_required_image .c5 dMissing "COM5" "y" false (by decide)
    (Or.inl (by rfl))

/-- C5: a run that reaches the prompt proceeds to flashing exactly when
the operator input, stripped of surrounding whitespace and lowercased,
equals `y`; on any other input the run emits the abort message, never
invokes the flashing capability, and exits with status 0.  The spec's
sample inputs behave as stated. -/
theorem confirmation_gate (v : Variant) (d : DirSnapshot) (port inp : String)
    (r : Bool) :
    ((pyStrip "y".data).map pyLowerChar = ['y'] ∧
     (pyStrip "Y".data).map pyLowerChar = ['y'] ∧
     (pyStrip " y ".data).map pyLowerChar = ['y'] ∧
     (pyStrip "n".data).map pyLowerChar ≠ ['y'] ∧
     (pyStrip "".data).map pyLowerChar ≠ ['y'] ∧
     (pyStrip "yes".data).map pyLowerChar ≠ ['y']) ∧
    ((∃ args, Event.flashCall args ∈ (mainRun v d port inp r).trace) ↔
      (resolveOk d = true ∧ (pyStrip inp.data).map pyLowerChar = ['y'])) ∧
    (resolveOk d = true → (pyStrip inp.data).map pyLowerChar ≠ ['y'] →
      (mainRun v d port inp r).exitCode = 0 ∧
      Event.abortMsg ∈ (mainRun v d port inp r).trace ∧
      ∀ args, Event.flashCall args ∉ (mainRun v d port inp r).trace) := by
  refine ⟨by decide, ?_, ?_⟩
  · constructor
    · rintro ⟨args, h⟩
      cases hf : firmwareBins d with
      | nil => simp [mainRun, hf] at h
      | cons x xs =>
        cases hb : bootloaderOf d with
        | none => simp [mainRun, hf, hb] at h
        | some b =>
          cases hp : partitionsOf d with
          | none => simp [mainRun, hf, hb, hp] at h
          | some p =>
            cases hc : confirmProceeds inp with
            | false => simp [mainRun, hf, hb, hp, hc] at h
            | true =>
              exact ⟨by simp [resolveOk, resolve, hf, hb, hp],
                (confirmProceeds_iff inp).mp hc⟩
    · rintro ⟨hok, hy⟩
      have hc : confirmProceeds inp = true := (confirmProceeds_iff inp).mpr hy
      cases hf : firmwareBins d with
      | nil => simp [resolveOk, resolve, hf] at hok
      | cons x xs =>
        cases hb : bootloaderOf d with
        | none => simp [resolveOk, resolve, hf, hb] at hok
        | some b =>
          cases hp : partitionsOf d with
          | none => simp [resolveOk, resolve, hf, hb, hp] at hok
          | some p =>
            refine ⟨esptool_args v port b p (otaDataOf d) (pyMaxBySize x xs).name, ?_⟩
            cases r <;> simp [mainRun, hf, hb, hp, hc]
  · intro hok hny
    have hc : confirmProceeds inp = false := by
      cases hcb : confirmProceeds inp with
      | false => rfl
      | true => exact absurd ((confirmProceeds_iff inp).mp hcb) hny
    cases hf : firmwareBins d with
    | nil => simp [resolveOk, resolve, hf] at hok
    | cons x xs =>
      cases hb : bootloaderOf d with
      | none => simp [resolveOk, resolve, hf, hb] at hok
      | some b =>
        cases hp : partitionsOf d with
        | none => simp [resolveOk, resolve, hf, hb, hp] at hok
        | some p =>
          refine ⟨?_, ?_, ?_⟩
          · simp [mainRun, hf, hb, hp, hc]
          · simp [mainRun, hf, hb, hp, hc]
          · intro args
            simp [mainRun, hf, hb, hp, hc]

/-- Witness for C5: on `dEx` the input `n` aborts with exit status 0, and
the input ` Y ` proceeds to a flashing call. -/
theorem confirmation_gate_witness :
    ((mainRun .c5 dEx "COM5" "n" false).exitCode = 0 ∧
      Event.abortMsg ∈ (mainRun .c5 dEx "COM5" "n" false).trace) ∧
    ∃ args, Event.flashCall args ∈ (mainRun .c5 dEx "COM5" " Y " false).trace := by
  constructor
  · have h := (confirmation_gate .c5 dEx "COM5" "n" false).2.2 (by rfl) (by decide)
    exact ⟨h.1, h.2.1⟩
  · exact (confirmation_gate .c5 dEx "COM5" " Y " false).2.1.mpr ⟨by rfl, by decide⟩

/-- C6: the external flashing capability is invoked at most once per run
(no retry); when it is invoked, the run still ends with exit status 0
whether or not the call raises, the completion message appears iff no
exception was raised, and the failure report appears iff one was. -/
theorem flash_failure_handling (v : Variant) (d : DirSnapshot)
    (port inp : String) (r : Bool) :
    (mainRun v d port inp r).trace.countP isFlashCall ≤ 1 ∧
    (∀ args, Event.flashCall args ∈ (mainRun v d port inp r).trace →
      (mainRun v d port inp r).exitCode = 0 ∧
      (Event.flashComplete ∈ (mainRun v d port inp r).trace ↔ r = false) ∧
      (Event.flashFailed ∈ (mainRun v d port inp r).trace ↔ r = true)) := by
  cases hf : firmwareBins d with
  | nil => simp [mainRun, hf, List.countP_cons, List.countP_nil, isFlashCall]
  | cons x xs =>
    cases hb : bootloaderOf d with
    | none => simp [mainRun, hf, hb, List.countP_cons, List.countP_nil, isFlashCall]
    | some b =>
      cases hp : partitionsOf d with
      | none =>
        simp [mainRun, hf, hb, hp, List.countP_cons, List.countP_nil, isFlashCall]
      | some p =>
        cases hc : confirmProceeds inp with
        | false =>
          simp [mainRun, hf, hb, hp, hc, List.countP_cons, List.countP_nil,
            isFlashCall]
        | true =>
          cases r <;>
            simp [mainRun, hf, hb, hp, hc, List.countP_cons, List.countP_nil,
              isFlashCall]

/-- Witness for C6: a concrete run whose flashing call raises still exits
with status 0 and reports the failure. -/
theorem flash_failure_handling_witness :
    (mainRun .c5 dEx "COM5" "y" true).trace.countP isFlashCall ≤ 1 ∧
    (mainRun .c5 dEx "COM5" "y" true).exitCode = 0 ∧
    (Event.flashFailed ∈ (mainRun .c5 dEx "COM5" "y" true).trace ↔ true = true) := by
  have h := flash_failure_handling .c5 dEx "COM5" "y" true
  have h2 := h.2 argsEx (by decide)
  exact ⟨h.1, h2.1, h2.2.2⟩

end C5Flasher
